import Mathlib

/-!
Verification of the status inference and stability engine of a tmux status
daemon.  Go strings are modelled as lists of runes (`List Char`); the
external tmux and `/proc` interfaces are modelled as explicit inputs
(captured pane content as `Option Str`, the process table as a list of
entries).  All definitions are translated from `src/main.go`.
-/

namespace TmuxAiStatus

/-- Go strings, modelled as sequences of runes. -/
abbrev Str := List Char

/-- Rune predicate of Go's `unicode.IsSpace` (the whitespace runes relevant
to terminal content). -/
def goIsSpace (c : Char) : Bool :=
  c = ' ' || c = '\t' || c = '\n' || c = '\x0b' || c = '\x0c' || c = '\r' ||
  c = '\u0085' || c = '\u00A0'

/-- Go `strings.TrimSpace`: drop whitespace from both ends. -/
def goTrimSpace (s : Str) : Str :=
  ((s.dropWhile goIsSpace).reverse.dropWhile goIsSpace).reverse

/-- Go `strings.Split(s, sep)` for a one-rune separator. -/
def splitOnChar (sep : Char) : Str → List Str
  | [] => [[]]
  | c :: cs =>
    if c = sep then [] :: splitOnChar sep cs
    else
      match splitOnChar sep cs with
      | [] => [[c]]
      | h :: t => (c :: h) :: t

/-- Go `strings.HasPrefix s pre`. -/
def strStarts : Str → Str → Bool
  | _, [] => true
  | [], _ :: _ => false
  | c :: cs, p :: ps => decide (c = p) && strStarts cs ps

/-- Go `strings.Contains s sub`: `sub` occurs at some position of `s`. -/
def strHasSub : Str → Str → Bool
  | [], sub => strStarts [] sub
  | c :: t, sub => if strStarts (c :: t) sub then true else strHasSub t sub

/-- Go `strings.TrimPrefix s pre`. -/
def goTrimPre (s pre : Str) : Str :=
  if strStarts s pre then s.drop pre.length else s

/-- Go `strings.FieldsFunc` helper: accumulate the current field (reversed). -/
def fieldsByAux (p : Char → Bool) : Str → Str → List Str
  | [], acc => if acc = [] then [] else [acc.reverse]
  | c :: cs, acc =>
    if p c then
      if acc = [] then fieldsByAux p cs [] else acc.reverse :: fieldsByAux p cs []
    else fieldsByAux p cs (c :: acc)

/-- Go `strings.FieldsFunc s p`: maximal runs of runes not satisfying `p`. -/
def fieldsBy (p : Char → Bool) (s : Str) : List Str := fieldsByAux p s []

/-- Go `strings.Fields`. -/
def goFields (s : Str) : List Str := fieldsBy goIsSpace s

/-- Go `strings.ToLower`, applied rune-wise. -/
def goToLower (s : Str) : Str := s.map Char.toLower

/-- Go `strings.Join(names, "\n")`. -/
def joinNl : List Str → Str
  | [] => []
  | [x] => x
  | x :: xs => x ++ '\n' :: joinNl xs

/-- Go `strings.LastIndex(s, c)` for a one-rune needle, as an `Option`. -/
def lastIdxOf (c : Char) (s : Str) : Option Nat :=
  match s.reverse.findIdx? (fun x => x = c) with
  | none => none
  | some j => some (s.length - 1 - j)

/-- Go `strings.Index(s, sub)`, as an `Option`. -/
def indexOfSub (s sub : Str) : Option Nat :=
  if strStarts s sub then some 0
  else
    match s with
    | [] => none
    | _ :: t => (indexOfSub t sub).map (· + 1)

/-- Value of a run of decimal digits. -/
def digitsVal (ds : Str) : Nat :=
  ds.foldl (fun acc d => 10 * acc + (d.toNat - 48)) 0

/-- Go `strconv.Atoi` with the error ignored (the caller uses `0` on
failure): optional sign followed by decimal digits, else `0`. -/
def goAtoi (s : Str) : Int :=
  match s with
  | [] => 0
  | '+' :: ds => if ds ≠ [] ∧ ds.all Char.isDigit then (digitsVal ds : Int) else 0
  | '-' :: ds => if ds ≠ [] ∧ ds.all Char.isDigit then -(digitsVal ds : Int) else 0
  | ds => if ds.all Char.isDigit then (digitsVal ds : Int) else 0

/-! ## Unread / attention engine (`shouldMarkUnread`, `hasPromptText`) -/

/-- `hasPromptText` from `src/main.go`: a prompt signature carries text
beyond the bare prompt glyph. -/
def hasPromptText (promptSig : Str) : Bool :=
  if promptSig = [] then false
  else if strStarts promptSig ("codex:".toList) then
    let p := goTrimSpace (goTrimPre promptSig ("codex:".toList))
    if p = [] then false else if p = "›".toList then false else true
  else if strStarts promptSig ("claude:".toList) then
    let p := goTrimSpace (goTrimPre promptSig ("claude:".toList))
    if p = [] then false else if p = "❯".toList then false else true
  else false

/-- `shouldMarkUnread` from `src/main.go`. -/
def shouldMarkUnread (wasWorking focused isWorking : Bool) (rawStatus : Str)
    (seenBefore : Bool) (promptSig prevPromptSig doneSig prevDoneSig : Str) : Bool :=
  if focused || isWorking || decide (rawStatus = []) then false
  else if wasWorking then true
  else if !seenBefore then hasPromptText promptSig
  else if decide (doneSig ≠ []) && decide (doneSig ≠ prevDoneSig) then true
  else if decide (promptSig ≠ []) && decide (promptSig ≠ prevPromptSig) then true
  else false

/-- Claim C5: `shouldMarkUnread` returns false whenever the window is focused,
or the current status indicates active work, or the raw status is empty; and
it returns true whenever the window was working last cycle and is not working
now, while unfocused and with a non-empty raw status. -/
theorem claim_C5_unread_guards :
    ∀ (wasWorking focused isWorking : Bool) (rawStatus : Str) (seenBefore : Bool)
      (promptSig prevPromptSig doneSig prevDoneSig : Str),
      ((focused = true ∨ isWorking = true ∨ rawStatus = []) →
        shouldMarkUnread wasWorking focused isWorking rawStatus seenBefore
          promptSig prevPromptSig doneSig prevDoneSig = false) ∧
      ((wasWorking = true ∧ focused = false ∧ isWorking = false ∧ rawStatus ≠ []) →
        shouldMarkUnread wasWorking focused isWorking rawStatus seenBefore
          promptSig prevPromptSig doneSig prevDoneSig = true) := by
  intro wasWorking focused isWorking rawStatus seenBefore p pp d pd
  constructor
  · rintro (h | h | h) <;> simp [shouldMarkUnread, h]
  · rintro ⟨h1, h2, h3, h4⟩
    simp [shouldMarkUnread, h1, h2, h3, h4]

/-- Witness for C5 at concrete inputs. -/
theorem claim_C5_unread_guards_witness :
    shouldMarkUnread false true false ("x 💤".toList) true [] [] [] [] = false ∧
    shouldMarkUnread true false false ("x 💤".toList) true [] [] [] [] = true :=
  ⟨(claim_C5_unread_guards false true false ("x 💤".toList) true [] [] [] []).1
      (Or.inl rfl),
   (claim_C5_unread_guards true false false ("x 💤".toList) true [] [] [] []).2
      ⟨rfl, rfl, rfl, by decide⟩⟩

/-- Claim C6: on the first cycle a window is observed (and with none of the
other guards firing), `shouldMarkUnread` marks unread exactly when the prompt
signature carries text beyond a bare prompt glyph; in particular true for
`"codex:› Explain this codebase"` and false for the bare `"codex:›"`. -/
theorem claim_C6_first_baseline :
    (∀ (rawStatus promptSig prevPromptSig doneSig prevDoneSig : Str),
      rawStatus ≠ [] →
      shouldMarkUnread false false false rawStatus false
        promptSig prevPromptSig doneSig prevDoneSig = hasPromptText promptSig) ∧
    shouldMarkUnread false false false ("x 💤".toList) false
      ("codex:› Explain this codebase".toList) [] [] [] = true ∧
    shouldMarkUnread false false false ("x 💤".toList) false
      ("codex:›".toList) [] [] [] = false := by
  refine ⟨?_, by decide, by decide⟩
  intro rawStatus p pp d pd h
  simp [shouldMarkUnread, h]

/-- Witness for C6's universally quantified part at a concrete input. -/
theorem claim_C6_first_baseline_witness :
    shouldMarkUnread false false false ("c 💤".toList) false
      ("claude:❯".toList) [] [] [] = hasPromptText ("claude:❯".toList) :=
  claim_C6_first_baseline.1 ("c 💤".toList) ("claude:❯".toList) [] [] [] (by decide)

/-! ## Pane-text classification -/

/-- `hasSpinnerMarker` from `src/main.go`: the line starts with one of the
spinner glyph prefixes. -/
def hasSpinnerMarker (line : Str) : Bool :=
  strStarts line ("· ".toList) || strStarts line ("• ".toList) ||
  strStarts line ("✢ ".toList) || strStarts line ("✻ ".toList) ||
  strStarts line ("* ".toList)

/-- `hasActiveMarker` from `src/main.go`: interrupt hint, or spinner glyph
plus a gerund followed by an ellipsis. -/
def hasActiveMarker (line : Str) : Bool :=
  if strHasSub line ("esc to interrupt".toList) then true
  else if !hasSpinnerMarker line then false
  else strHasSub line ("ing…".toList) || strHasSub line ("ing...".toList)

/-- `isCompletionLine` from `src/main.go`. -/
def isCompletionLine (line : Str) : Bool :=
  strStarts line ("─ Worked for ".toList) ||
  decide (line = "Done.".toList) || strStarts line ("Done. ".toList) ||
  decide (line = "All set.".toList) || strStarts line ("All set. ".toList)

/-- Bottom-up scan of `classifyPaneContent` (the list is the reversed line
list; `checked` counts the non-empty lines already examined). -/
def classifyPaneContentAux : List Str → Nat → Bool
  | [], _ => false
  | l :: rest, checked =>
    if checked < 12 then
      let line := goTrimSpace l
      if line = [] then classifyPaneContentAux rest checked
      else if isCompletionLine line then false
      else if hasActiveMarker line then true
      else classifyPaneContentAux rest (checked + 1)
    else false

/-- `classifyPaneContent` from `src/main.go`: true if the pane content
indicates active work. -/
def classifyPaneContent (content : Str) : Bool :=
  classifyPaneContentAux (splitOnChar '\n' content).reverse 0

/-- Bottom-up scan of `classifyPaneActiveSignature`. -/
def classifyPaneActiveSignatureAux : List Str → Nat → Str
  | [], _ => []
  | l :: rest, checked =>
    if checked < 12 then
      let line := goTrimSpace l
      if line = [] then classifyPaneActiveSignatureAux rest checked
      else if hasActiveMarker line then line
      else classifyPaneActiveSignatureAux rest (checked + 1)
    else []

/-- `classifyPaneActiveSignature` from `src/main.go`. -/
def classifyPaneActiveSignature (content : Str) : Str :=
  classifyPaneActiveSignatureAux (splitOnChar '\n' content).reverse 0

/-- Bottom-up scan of `detectPromptSignature`. -/
def detectPromptSignatureAux : List Str → Nat → Str
  | [], _ => []
  | l :: rest, checked =>
    if checked < 12 then
      let line := goTrimSpace l
      if line = [] then detectPromptSignatureAux rest checked
      else if strStarts line ("› ".toList) = true ∨ line = "›".toList then
        "codex:".toList ++ line
      else if strStarts line ("❯ ".toList) = true ∨ line = "❯".toList then
        "claude:".toList ++ line
      else detectPromptSignatureAux rest (checked + 1)
    else []

/-- `detectPromptSignature` from `src/main.go`. -/
def detectPromptSignature (content : Str) : Str :=
  detectPromptSignatureAux (splitOnChar '\n' content).reverse 0

/-- `classifyPaneAttentionSignature` from `src/main.go`: empty while active,
otherwise the tagged prompt line. -/
def classifyPaneAttentionSignature (content : Str) : Str :=
  if classifyPaneContent content then [] else detectPromptSignature content

/-- Bottom-up scan of `classifyPaneCompletionSignature` (depth cap 20). -/
def classifyPaneCompletionSignatureAux : List Str → Nat → Str
  | [], _ => []
  | l :: rest, checked =>
    if checked < 20 then
      let line := goTrimSpace l
      if line = [] then classifyPaneCompletionSignatureAux rest checked
      else if isCompletionLine line then line
      else classifyPaneCompletionSignatureAux rest (checked + 1)
    else []

/-- `classifyPaneCompletionSignature` from `src/main.go`. -/
def classifyPaneCompletionSignature (content : Str) : Str :=
  classifyPaneCompletionSignatureAux (splitOnChar '\n' content).reverse 0

/-- `classifyPaneNeedsAttention` from `src/main.go`. -/
def classifyPaneNeedsAttention (content : Str) : Bool :=
  decide (classifyPaneAttentionSignature content ≠ [])

/-! ### Claim C7: the nearest-to-bottom marker decides -/

/-- Spec-side scan for claim C7, following the claim's words: the first
marker line encountered scanning trimmed non-empty lines bottom-up within
the 12-line cap (`some false` = completion marker, `some true` = active
marker, `none` = no marker within the cap). -/
def firstMarkerAux : List Str → Nat → Option Bool
  | [], _ => none
  | l :: rest, checked =>
    if checked < 12 then
      let line := goTrimSpace l
      if line = [] then firstMarkerAux rest checked
      else if isCompletionLine line then some false
      else if hasActiveMarker line then some true
      else firstMarkerAux rest (checked + 1)
    else none

/-- Spec-side: the classification of the first marker line found scanning
bottom-up, per claim C7. -/
def firstMarkerScan (content : Str) : Option Bool :=
  firstMarkerAux (splitOnChar '\n' content).reverse 0

theorem firstMarkerAux_completion (ls : List Str) :
    ∀ k, firstMarkerAux ls k = some false → classifyPaneContentAux ls k = false := by
  induction ls with
  | nil => intro k h; simp [firstMarkerAux] at h
  | cons l rest ih =>
    intro k h
    by_cases hk : k < 12
    · by_cases he : goTrimSpace l = []
      · have h' : firstMarkerAux rest k = some false := by
          simpa [firstMarkerAux, hk, he] using h
        simpa [classifyPaneContentAux, hk, he] using ih k h'
      · cases hc : isCompletionLine (goTrimSpace l) with
        | true => simp [classifyPaneContentAux, hk, he, hc]
        | false =>
          cases ha : hasActiveMarker (goTrimSpace l) with
          | true => simp [firstMarkerAux, hk, he, hc, ha] at h
          | false =>
            have h' : firstMarkerAux rest (k + 1) = some false := by
              simpa [firstMarkerAux, hk, he, hc, ha] using h
            simpa [classifyPaneContentAux, hk, he, hc, ha] using ih (k + 1) h'
    · simp [classifyPaneContentAux, hk]

/-- Claim C7: whenever the first marker line encountered scanning bottom-up
within the 12-line cap is a completion marker, `classifyPaneContent` reports
idle, even if an active marker appears further up. -/
theorem claim_C7_completion_wins :
    ∀ content : Str, firstMarkerScan content = some false →
      classifyPaneContent content = false := by
  intro content h
  exact firstMarkerAux_completion _ 0 h

/-- Witness for C7: a completion banner below an active spinner line
classifies as idle. -/
theorem claim_C7_completion_wins_witness :
    classifyPaneContent ("✻ Thinking…\nDone.\n".toList) = false :=
  claim_C7_completion_wins ("✻ Thinking…\nDone.\n".toList) (by decide)

/-! ### Claim C8: attention and completion signatures -/

theorem detectAux_cons_skip (l : Str) (rest : List Str) (k : Nat) (hk : k < 12)
    (he : goTrimSpace l = []) :
    detectPromptSignatureAux (l :: rest) k = detectPromptSignatureAux rest k := by
  simp only [detectPromptSignatureAux]
  rw [if_pos hk]
  rw [if_pos he]

theorem detectAux_cons_codex (l : Str) (rest : List Str) (k : Nat) (hk : k < 12)
    (he : ¬goTrimSpace l = [])
    (hc : strStarts (goTrimSpace l) ("› ".toList) = true ∨ goTrimSpace l = "›".toList) :
    detectPromptSignatureAux (l :: rest) k = "codex:".toList ++ goTrimSpace l := by
  simp only [detectPromptSignatureAux]
  rw [if_pos hk]
  rw [if_neg he, if_pos hc]

theorem detectAux_cons_claude (l : Str) (rest : List Str) (k : Nat) (hk : k < 12)
    (he : ¬goTrimSpace l = [])
    (hc : ¬(strStarts (goTrimSpace l) ("› ".toList) = true ∨ goTrimSpace l = "›".toList))
    (hd : strStarts (goTrimSpace l) ("❯ ".toList) = true ∨ goTrimSpace l = "❯".toList) :
    detectPromptSignatureAux (l :: rest) k = "claude:".toList ++ goTrimSpace l := by
  simp only [detectPromptSignatureAux]
  rw [if_pos hk]
  rw [if_neg he, if_neg hc, if_pos hd]

theorem detectAux_cons_other (l : Str) (rest : List Str) (k : Nat) (hk : k < 12)
    (he : ¬goTrimSpace l = [])
    (hc : ¬(strStarts (goTrimSpace l) ("› ".toList) = true ∨ goTrimSpace l = "›".toList))
    (hd : ¬(strStarts (goTrimSpace l) ("❯ ".toList) = true ∨ goTrimSpace l = "❯".toList)) :
    detectPromptSignatureAux (l :: rest) k = detectPromptSignatureAux rest (k + 1) := by
  simp only [detectPromptSignatureAux]
  rw [if_pos hk]
  rw [if_neg he, if_neg hc, if_neg hd]

/-- Shape of every non-empty result of the prompt scan: it is a trimmed line
of the input, tagged `codex:` for a `›` prompt and `claude:` for a `❯`
prompt. -/
theorem detectPromptSignatureAux_shape (ls : List Str) :
    ∀ k, detectPromptSignatureAux ls k = [] ∨
      ∃ l, l ∈ ls.map goTrimSpace ∧
        ((detectPromptSignatureAux ls k = "codex:".toList ++ l ∧
            (strStarts l ("› ".toList) = true ∨ l = "›".toList)) ∨
         (detectPromptSignatureAux ls k = "claude:".toList ++ l ∧
            (strStarts l ("❯ ".toList) = true ∨ l = "❯".toList))) := by
  induction ls with
  | nil => intro k; left; simp [detectPromptSignatureAux]
  | cons l rest ih =>
    intro k
    by_cases hk : k < 12
    · by_cases he : goTrimSpace l = []
      · rw [detectAux_cons_skip l rest k hk he]
        exact (ih k).imp id
          (fun ⟨l', hmem, hsig⟩ => ⟨l', List.mem_cons_of_mem _ hmem, hsig⟩)
      · by_cases hcodex : strStarts (goTrimSpace l) ("› ".toList) = true ∨
            goTrimSpace l = "›".toList
        · right
          exact ⟨goTrimSpace l, by simp,
            Or.inl ⟨detectAux_cons_codex l rest k hk he hcodex, hcodex⟩⟩
        · by_cases hclaude : strStarts (goTrimSpace l) ("❯ ".toList) = true ∨
              goTrimSpace l = "❯".toList
          · right
            exact ⟨goTrimSpace l, by simp,
              Or.inr ⟨detectAux_cons_claude l rest k hk he hcodex hclaude, hclaude⟩⟩
          · rw [detectAux_cons_other l rest k hk he hcodex hclaude]
            exact (ih (k + 1)).imp id
              (fun ⟨l', hmem, hsig⟩ => ⟨l', List.mem_cons_of_mem _ hmem, hsig⟩)
    · left; simp [detectPromptSignatureAux, hk]

/-- Claim C8: the attention signature is empty whenever the content
classifies as active; otherwise it is the prompt signature, which — when
non-empty — is a trimmed line of the content tagged `codex:` (for a line
equal to or starting with `› `) or `claude:` (for a line equal to or
starting with `❯ `); and on the pane text `"Done.\n\n› Explain this
codebase\n"` the attention signature is `"codex:› Explain this codebase"`
and the completion signature is `"Done."`. -/
theorem claim_C8_signatures :
    (∀ content : Str, classifyPaneContent content = true →
        classifyPaneAttentionSignature content = []) ∧
    (∀ content : Str, classifyPaneContent content = false →
        classifyPaneAttentionSignature content = detectPromptSignature content ∧
        (detectPromptSignature content = [] ∨
         ∃ l, l ∈ (splitOnChar '\n' content).map goTrimSpace ∧
           ((detectPromptSignature content = "codex:".toList ++ l ∧
               (strStarts l ("› ".toList) = true ∨ l = "›".toList)) ∨
            (detectPromptSignature content = "claude:".toList ++ l ∧
               (strStarts l ("❯ ".toList) = true ∨ l = "❯".toList))))) ∧
    (classifyPaneAttentionSignature ("Done.\n\n› Explain this codebase\n".toList) =
        "codex:› Explain this codebase".toList ∧
     classifyPaneCompletionSignature ("Done.\n\n› Explain this codebase\n".toList) =
        "Done.".toList) := by
  refine ⟨?_, ?_, by decide, by decide⟩
  · intro content h
    simp [classifyPaneAttentionSignature, h]
  · intro content h
    refine ⟨by simp [classifyPaneAttentionSignature, h], ?_⟩
    have := detectPromptSignatureAux_shape (splitOnChar '\n' content).reverse 0
    simpa [detectPromptSignature, List.map_reverse] using this

/-- Witness for C8: the first two parts applied at concrete pane texts. -/
theorem claim_C8_signatures_witness :
    classifyPaneAttentionSignature ("✻ Pondering… (esc to interrupt)\n".toList) = [] ∧
    classifyPaneAttentionSignature ("❯ \n".toList) =
      detectPromptSignature ("❯ \n".toList) :=
  ⟨claim_C8_signatures.1 ("✻ Pondering… (esc to interrupt)\n".toList) (by decide),
   (claim_C8_signatures.2.1 ("❯ \n".toList) (by decide)).1⟩

/-! ## Stability engine: staleness and grace period

Timestamps are modelled as `Int` nanoseconds (`time.Time` differences map to
`Int` subtraction).  The per-window maps `windowActiveSig` / `windowActiveAt`
become a `StaleState`, and `lastActive` an `Option Int`. -/

/-- `staleActiveThreshold` (12 seconds, in nanoseconds). -/
def staleActiveThreshold : Int := 12000000000

/-- `activeGrace` (10 seconds, in nanoseconds). -/
def activeGrace : Int := 10000000000

/-- Per-window staleness tracking: the tracked active-line signature
(`windowActiveSig`) and when it was first seen unchanged (`windowActiveAt`). -/
structure StaleState where
  sig : Option Str
  firstAt : Option Int
deriving DecidableEq

/-- `isStaleActiveMarker` from `src/main.go`, as a pure transition: returns
the staleness verdict and the updated tracking state. -/
def isStaleActiveMarker (st : StaleState) (content : Str) (now : Int) :
    Bool × StaleState :=
  let activeSig := classifyPaneActiveSignature content
  if activeSig = [] then (false, st)
  else
    let promptSig := detectPromptSignature content
    if promptSig = [] then (false, ⟨some activeSig, some now⟩)
    else
      match st.sig with
      | none => (false, ⟨some activeSig, some now⟩)
      | some prev =>
        if prev ≠ activeSig then (false, ⟨some activeSig, some now⟩)
        else
          match st.firstAt with
          | none => (false, ⟨st.sig, some now⟩)
          | some startedAt => (decide (staleActiveThreshold ≤ now - startedAt), st)

/-- `clearActiveMarker` from `src/main.go`: forget the tracked signature. -/
def clearActiveMarker (_st : StaleState) : StaleState := ⟨none, none⟩

/-- The raw per-cycle activity verdict of `isPaneActive` before the grace
period is applied (the `active` local of the source), with the updated
staleness state; the capture is `none` on a capture miss. -/
def paneRawActive (capture : Option Str) (st : StaleState) (now : Int) :
    Bool × StaleState :=
  match capture with
  | some content =>
    if classifyPaneContent content then
      let r := isStaleActiveMarker st content now
      (!r.1, r.2)
    else (false, clearActiveMarker st)
  | none => (false, clearActiveMarker st)

/-- `isPaneActive` from `src/main.go`: the raw verdict, then the grace
period over `lastActive`.  Returns (result, staleness state, lastActive). -/
def isPaneActive (capture : Option Str) (st : StaleState) (la : Option Int)
    (now : Int) : Bool × StaleState × Option Int :=
  let r := paneRawActive capture st now
  if r.1 then (true, r.2, some now)
  else
    match la with
    | some last => if now - last < activeGrace then (true, r.2, some last)
                   else (false, r.2, none)
    | none => (false, r.2, none)

/-- Claim C2: with an active-signature line present, `isStaleActiveMarker`
compares the elapsed time against the 12-second threshold when the line is
unchanged from the tracked text and a prompt is simultaneously visible
(false strictly below the threshold, true at or above it); and it returns
false, resetting the tracked signature and first-seen time to now, whenever
the active line differs from the tracked text or no prompt is present. -/
theorem claim_C2_stale_marker :
    ∀ (content : Str) (sig : Option Str) (t0 : Option Int) (now t : Int),
      classifyPaneActiveSignature content ≠ [] →
      ((detectPromptSignature content ≠ [] →
          sig = some (classifyPaneActiveSignature content) →
          t0 = some t →
          ((isStaleActiveMarker ⟨sig, t0⟩ content now).1 = true ↔
            staleActiveThreshold ≤ now - t)) ∧
       ((sig ≠ some (classifyPaneActiveSignature content) ∨
            detectPromptSignature content = []) →
          (isStaleActiveMarker ⟨sig, t0⟩ content now).1 = false ∧
          (isStaleActiveMarker ⟨sig, t0⟩ content now).2 =
            ⟨some (classifyPaneActiveSignature content), some now⟩)) := by
  intro content sig t0 now t hsig
  constructor
  · intro hprompt hs ht
    subst hs; subst ht
    simp [isStaleActiveMarker, hsig, hprompt]
  · intro h
    rcases h with h | h
    · by_cases hprompt : detectPromptSignature content = []
      · simp [isStaleActiveMarker, hsig, hprompt]
      · cases sig with
        | none => simp [isStaleActiveMarker, hsig, hprompt]
        | some prev =>
          have hne : prev ≠ classifyPaneActiveSignature content := by
            intro he; exact h (by rw [he])
          simp [isStaleActiveMarker, hsig, hprompt, hne]
    · simp [isStaleActiveMarker, hsig, h]

/-- Witness for C2: a frozen spinner line above a visible prompt is stale at
12 seconds, and a changed tracked signature resets the tracking. -/
theorem claim_C2_stale_marker_witness :
    ((isStaleActiveMarker
        ⟨some ("✻ Thinking…".toList), some 0⟩
        ("✻ Thinking…\n❯ \n".toList) 12000000000).1 = true ↔
      staleActiveThreshold ≤ (12000000000 : Int) - 0) ∧
    (isStaleActiveMarker ⟨none, none⟩ ("✻ Thinking…\n❯ \n".toList) 5).1 = false :=
  ⟨(claim_C2_stale_marker ("✻ Thinking…\n❯ \n".toList)
      (some ("✻ Thinking…".toList)) (some 0) 12000000000 0 (by decide)).1
      (by decide) (by decide) rfl,
   ((claim_C2_stale_marker ("✻ Thinking…\n❯ \n".toList)
      none none 5 0 (by decide)).2 (Or.inl (by simp))).1⟩

/-- Claim C3: when the raw per-cycle classification is inactive,
`isPaneActive` still reports active if the stored last-confirmed-active
timestamp is within the 10-second grace window of now; otherwise it reports
inactive and forgets the stored timestamp. -/
theorem claim_C3_grace_period :
    ∀ (capture : Option Str) (st : StaleState) (la : Option Int) (now : Int),
      (paneRawActive capture st now).1 = false →
      ((∀ last : Int, la = some last → now - last < activeGrace →
          (isPaneActive capture st la now).1 = true) ∧
       ((∀ last : Int, la = some last → activeGrace ≤ now - last) →
          (isPaneActive capture st la now).1 = false ∧
          (isPaneActive capture st la now).2.2 = none)) := by
  intro capture st la now hraw
  constructor
  · intro last hla hlt
    subst hla
    simp [isPaneActive, hraw, hlt]
  · intro h
    cases la with
    | none => simp [isPaneActive, hraw]
    | some last =>
      have hge : ¬(now - last < activeGrace) := not_lt.mpr (h last rfl)
      simp [isPaneActive, hraw, hge]

/-- Witness for C3: a capture miss with a 5ns-old confirmation stays active;
with the confirmation outside the grace window the result is inactive and
the timestamp is dropped. -/
theorem claim_C3_grace_period_witness :
    (isPaneActive none ⟨none, none⟩ (some 0) 5).1 = true ∧
    (isPaneActive none ⟨none, none⟩ (some 0) 20000000000).1 = false ∧
    (isPaneActive none ⟨none, none⟩ (some 0) 20000000000).2.2 = none := by
  refine ⟨?_, ?_, ?_⟩
  · exact (claim_C3_grace_period none ⟨none, none⟩ (some 0) 5 (by decide)).1
      0 rfl (by decide)
  · exact ((claim_C3_grace_period none ⟨none, none⟩ (some 0) 20000000000
      (by decide)).2 (by intro last h; cases h; decide)).1
  · exact ((claim_C3_grace_period none ⟨none, none⟩ (some 0) 20000000000
      (by decide)).2 (by intro last h; cases h; decide)).2

/-! ## Hysteresis (`setWindowStatus`)

`windowState` from `src/main.go`; the step returns whether the commit (the
external `tmux rename-window` / `automatic-rename` call) fired this cycle.
The threshold is a parameter; the source fixes it via `stabilityThreshold`. -/

/-- `windowState` from `src/main.go`. -/
structure WindowState where
  applied : Str
  pending : Str
  count : Nat
  unread : Bool
deriving DecidableEq

/-- The zero value a window's state is created with. -/
def initWindowState : WindowState := ⟨[], [], 0, false⟩

/-- `stabilityThreshold` from `src/main.go`. -/
def stabilityThreshold : Nat := 1

/-- One call of `setWindowStatus` with threshold `n`, as a pure transition;
the boolean is true exactly when the status is committed and the external
rename call is issued. -/
def setWindowStatusStep (n : Nat) (ws : WindowState) (status : Str) :
    WindowState × Bool :=
  if status = ws.applied then ({ ws with pending := [], count := 0 }, false)
  else
    let ws1 := if status = ws.pending then { ws with count := ws.count + 1 }
               else { ws with pending := status, count := 1 }
    if ws1.count < n then (ws1, false)
    else ({ applied := status, pending := [], count := 0, unread := ws1.unread }, true)

/-- `setWindowStatus` as in the source, at the source's threshold. -/
def setWindowStatus (ws : WindowState) (status : Str) : WindowState × Bool :=
  setWindowStatusStep stabilityThreshold ws status

/-- The state after a sequence of `setWindowStatus` calls. -/
def runStatus (n : Nat) (ws : WindowState) (xs : List Str) : WindowState :=
  xs.foldl (fun w s => (setWindowStatusStep n w s).1) ws

/-- The alternating call sequence `a, b, a, b, ...` of length `k`. -/
def altList : Nat -> Str -> Str -> List Str
  | 0, _, _ => []
  | k + 1, a, b => a :: altList k b a

/-- True when every state reached while feeding `xs` keeps its
consecutive-observation count at most 1. -/
def countsLE1 (n : Nat) (ws : WindowState) : List Str -> Bool
  | [] => true
  | s :: rest =>
    decide ((setWindowStatusStep n ws s).1.count ≤ 1) &&
      countsLE1 n (setWindowStatusStep n ws s).1 rest

/-- Invariant of the hysteresis run: either the count is zero, or the
pending candidate differs from the applied status and the processed call
sequence ends in `count` copies of the pending candidate. -/
def HystInv (ws : WindowState) (xs : List Str) : Prop :=
  ws.count = 0 ∨
    (ws.pending ≠ ws.applied ∧ ∃ t, t ++ List.replicate ws.count ws.pending = xs)

theorem hystInv_step (n : Nat) (ws : WindowState) (xs : List Str) (s : Str)
    (h : HystInv ws xs) :
    HystInv (setWindowStatusStep n ws s).1 (xs ++ [s]) := by
  unfold setWindowStatusStep
  by_cases ha : s = ws.applied
  · rw [if_pos ha]; left; rfl
  · rw [if_neg ha]
    by_cases hp : s = ws.pending
    · rw [if_pos hp]
      by_cases hlt : ws.count + 1 < n
      · rw [if_pos hlt]
        right
        refine ⟨by simpa [hp] using ha, ?_⟩
        rcases h with h0 | ⟨_, t, ht⟩
        · exact ⟨xs, by simp [h0, hp, List.replicate_succ]⟩
        · exact ⟨t, by rw [List.replicate_succ', hp] at *
                       simp [← List.append_assoc, ht]⟩
      · rw [if_neg hlt]; left; rfl
    · rw [if_neg hp]
      by_cases hlt : (1 : Nat) < n
      · rw [if_pos hlt]
        right
        exact ⟨ha, xs, by simp⟩
      · rw [if_neg hlt]; left; rfl

theorem hystInv_run (n : Nat) (ws : WindowState) (xs ys : List Str)
    (h : HystInv ws xs) : HystInv (runStatus n ws ys) (xs ++ ys) := by
  induction ys generalizing ws xs with
  | nil => simpa [runStatus] using h
  | cons y ys ih =>
    have h1 := hystInv_step n ws xs y h
    have h2 := ih (setWindowStatusStep n ws y).1 (xs ++ [y]) h1
    simpa [runStatus, List.append_assoc] using h2

theorem hystInv_of_init (n : Nat) (xs : List Str) :
    HystInv (runStatus n initWindowState xs) xs := by
  have := hystInv_run n initWindowState [] xs (Or.inl rfl)
  simpa using this

/-- Step invariant for the alternation property: an input differing from the
pending candidate of a count-1 state keeps the count at 1. -/
theorem altStep (n : Nat) (ws : WindowState) (x last : Str)
    (hx : x ≠ last) (hc : ws.count ≤ 1) (hp : ws.count = 1 → ws.pending = last) :
    (setWindowStatusStep n ws x).1.count ≤ 1 ∧
      ((setWindowStatusStep n ws x).1.count = 1 →
        (setWindowStatusStep n ws x).1.pending = x) := by
  unfold setWindowStatusStep
  by_cases ha : x = ws.applied
  · rw [if_pos ha]; exact ⟨by simp, by simp⟩
  · rw [if_neg ha]
    by_cases hpend : x = ws.pending
    · rw [if_pos hpend]
      have hc0 : ws.count = 0 := by
        rcases Nat.lt_or_ge ws.count 1 with h | h
        · omega
        · exact absurd (hp (by omega)) (by rw [← hpend]; exact hx)
      by_cases hlt : ws.count + 1 < n
      · rw [if_pos hlt]
        exact ⟨by simp [hc0], fun _ => hpend.symm⟩
      · rw [if_neg hlt]; exact ⟨by simp, by simp⟩
    · rw [if_neg hpend]
      by_cases hlt : (1 : Nat) < n
      · rw [if_pos hlt]; exact ⟨by simp, fun _ => rfl⟩
      · rw [if_neg hlt]; exact ⟨by simp, by simp⟩

theorem altRun (n : Nat) (a b : Str) (hab : a ≠ b) :
    ∀ (k : Nat) (ws : WindowState), ws.count ≤ 1 → (ws.count = 1 → ws.pending = b) →
      countsLE1 n ws (altList k a b) = true := by
  intro k
  induction k generalizing a b hab with
  | zero => intro ws _ _; rfl
  | succ k ih =>
    intro ws hc hp
    have hstep := altStep n ws a b hab hc hp
    have hrec := ih b a (Ne.symm hab) (setWindowStatusStep n ws a).1 hstep.1 hstep.2
    simp [altList, countsLE1, hstep.1, hrec]

/-- Claim C1: with threshold `n ≥ 1`, a commit (the external rename call)
happens only for a status different from the currently applied one that has
been the argument of the last `n` consecutive calls; and along any
alternating call sequence of two distinct values the consecutive-observation
count never exceeds 1. -/
theorem claim_C1_hysteresis :
    (∀ (n : Nat), 1 ≤ n → ∀ (xs : List Str) (s : Str),
      (setWindowStatusStep n (runStatus n initWindowState xs) s).2 = true →
      s ≠ (runStatus n initWindowState xs).applied ∧
        ∃ t, t ++ List.replicate n s = xs ++ [s]) ∧
    (∀ (n k : Nat) (a b : Str), a ≠ b →
      countsLE1 n initWindowState (altList k a b) = true) := by
  constructor
  · intro n hn xs s hfire
    set ws := runStatus n initWindowState xs with hws
    have hinv := hystInv_of_init n xs
    rw [← hws] at hinv
    unfold setWindowStatusStep at hfire
    by_cases ha : s = ws.applied
    · rw [if_pos ha] at hfire; exact absurd hfire (by simp)
    · refine ⟨ha, ?_⟩
      rw [if_neg ha] at hfire
      by_cases hp : s = ws.pending
      · rw [if_pos hp] at hfire
        by_cases hlt : ws.count + 1 < n
        · rw [if_pos hlt] at hfire; exact absurd hfire (by simp)
        · have hn' : n ≤ ws.count + 1 := by omega
          rcases hinv with h0 | ⟨_, t, ht⟩
          · have : n = 1 := by omega
            exact ⟨xs, by simp [this]⟩
          · refine ⟨t ++ List.replicate (ws.count + 1 - n) s, ?_⟩
            have hsplit : List.replicate (ws.count + 1 - n) s ++ List.replicate n s =
                List.replicate (ws.count + 1) s := by
              rw [← List.replicate_add]
              congr 1
              omega
            calc t ++ List.replicate (ws.count + 1 - n) s ++ List.replicate n s
                = t ++ List.replicate (ws.count + 1) s := by
                  rw [List.append_assoc, hsplit]
              _ = t ++ (List.replicate ws.count s ++ [s]) := by
                  rw [← List.replicate_succ']
              _ = xs ++ [s] := by rw [← List.append_assoc, hp, ht]
      · rw [if_neg hp] at hfire
        by_cases hlt : (1 : Nat) < n
        · rw [if_pos hlt] at hfire; exact absurd hfire (by simp)
        · have : n = 1 := by omega
          exact ⟨xs, by simp [this]⟩
  · intro n k a b hab
    exact altRun n a b hab k initWindowState (by simp [initWindowState]) (by simp [initWindowState])

/-- Witness for C1: a commit at threshold 2 after two consecutive identical
calls, and an alternating run of length 6 at threshold 3. -/
theorem claim_C1_hysteresis_witness :
    ("s".toList ≠ (runStatus 2 initWindowState ["s".toList]).applied ∧
      ∃ t, t ++ List.replicate 2 ("s".toList) = ["s".toList] ++ ["s".toList]) ∧
    countsLE1 3 initWindowState (altList 6 ("a".toList) ("b".toList)) = true :=
  ⟨claim_C1_hysteresis.1 2 (by decide) ["s".toList] ("s".toList) (by decide),
   claim_C1_hysteresis.2 3 6 ("a".toList) ("b".toList) (by decide)⟩

/-! ## Process topology (`buildChildMap`, `parsePPIDFromStat`)

The `/proc` scan is modelled as a list of already-enumerated entries: the
numeric directory name (the pid) together with the text of the entry's
`stat` file.  The Go map `map[int][]int` with append becomes a function
`Int -> List Int`. -/

/-- One scanned process-table entry. -/
structure ProcEntry where
  pid : Int
  stat : Str

/-- `parsePPIDFromStat` from `src/main.go`: the second space-delimited field
after the last `)` of the stat line, or 0. -/
def parsePPIDFromStat (stat : Str) : Int :=
  match lastIdxOf ')' stat with
  | none => 0
  | some i =>
    if i + 2 ≥ stat.length then 0
    else
      match goFields (stat.drop (i + 2)) with
      | _ :: f1 :: _ => goAtoi f1
      | _ => 0

/-- The `m[ppid] = append(m[ppid], pid)` update of `buildChildMap`. -/
def addEdge (m : Int → List Int) (ppid pid : Int) : Int → List Int :=
  fun q => if q = ppid then m q ++ [pid] else m q

theorem addEdge_self (m : Int → List Int) (ppid pid : Int) :
    addEdge m ppid pid ppid = m ppid ++ [pid] := by
  simp [addEdge]

theorem addEdge_other (m : Int → List Int) (ppid pid q : Int) (h : q ≠ ppid) :
    addEdge m ppid pid q = m q := by
  simp [addEdge, h]

/-- The scan loop of `buildChildMap` over the remaining entries. -/
def buildChildMapFrom (m : Int → List Int) : List ProcEntry → (Int → List Int)
  | [] => m
  | e :: rest =>
    let ppid := parsePPIDFromStat e.stat
    buildChildMapFrom (if 0 < ppid then addEdge m ppid e.pid else m) rest

/-- `buildChildMap` from `src/main.go`, over a given process table. -/
def buildChildMap (table : List ProcEntry) : Int → List Int :=
  buildChildMapFrom (fun _ => []) table

theorem buildChildMapFrom_mem (table : List ProcEntry) :
    ∀ (m : Int → List Int) (p c : Int),
      c ∈ buildChildMapFrom m table p ↔
        c ∈ m p ∨ ∃ e ∈ table, e.pid = c ∧ parsePPIDFromStat e.stat = p ∧ 0 < p := by
  induction table with
  | nil => intro m p c; simp [buildChildMapFrom]
  | cons e rest ih =>
    intro m p c
    simp only [buildChildMapFrom]
    rw [ih]
    by_cases hpos : 0 < parsePPIDFromStat e.stat
    · rw [if_pos hpos]
      by_cases hp : p = parsePPIDFromStat e.stat
      · subst hp
        rw [addEdge_self]
        simp only [List.mem_append, List.mem_cons, List.not_mem_nil, or_false]
        constructor
        · rintro ((hm | hc) | ⟨e', he', rest'⟩)
          · exact Or.inl hm
          · exact Or.inr ⟨e, Or.inl rfl, hc.symm, rfl, hpos⟩
          · exact Or.inr ⟨e', Or.inr he', rest'⟩
        · rintro (hm | ⟨e', (he' | he'), hpid, hppid, hpos'⟩)
          · exact Or.inl (Or.inl hm)
          · subst he'; exact Or.inl (Or.inr hpid.symm)
          · exact Or.inr ⟨e', he', hpid, hppid, hpos'⟩
      · rw [addEdge_other _ _ _ _ hp]
        simp only [List.mem_cons]
        constructor
        · rintro (hm | ⟨e', he', rest'⟩)
          · exact Or.inl hm
          · exact Or.inr ⟨e', Or.inr he', rest'⟩
        · rintro (hm | ⟨e', (he' | he'), hpid, hppid, hpos'⟩)
          · exact Or.inl hm
          · subst he'; exact absurd hppid.symm hp
          · exact Or.inr ⟨e', he', hpid, hppid, hpos'⟩
    · rw [if_neg hpos]
      simp only [List.mem_cons]
      constructor
      · rintro (hm | ⟨e', he', rest'⟩)
        · exact Or.inl hm
        · exact Or.inr ⟨e', Or.inr he', rest'⟩
      · rintro (hm | ⟨e', (he' | he'), hpid, hppid, hpos'⟩)
        · exact Or.inl hm
        · subst he'; rw [hppid] at hpos; exact absurd hpos' hpos
        · exact Or.inr ⟨e', he', hpid, hppid, hpos'⟩

/-- Counterexample to claim C4 as stated: an entry whose recorded parent id
equals its own (positive) pid does produce an edge — the self-referential
clause of the claim fails on the code. -/
theorem claim_C4_counterexample :
    parsePPIDFromStat ("5 (x) S 5".toList) = 5 ∧
      (5 : Int) ∈ buildChildMap [⟨5, "5 (x) S 5".toList⟩] 5 := by
  constructor
  · decide
  · decide

/-- Claim C4 (amended): the built map contains an edge p→c iff some scanned
entry has pid c and a recorded (parsed) parent id equal to p and positive;
in particular a zero or negative recorded parent id produces no edge, while
a self-referential positive parent id produces a self-edge. -/
theorem claim_C4_child_map :
    (∀ (table : List ProcEntry) (p c : Int),
      c ∈ buildChildMap table p ↔
        ∃ e ∈ table, e.pid = c ∧ parsePPIDFromStat e.stat = p ∧ 0 < p) ∧
    (∀ (table : List ProcEntry) (c : Int),
      (∃ e ∈ table, e.pid = c ∧ parsePPIDFromStat e.stat = c ∧ 0 < c) →
        c ∈ buildChildMap table c) := by
  have hmem : ∀ (table : List ProcEntry) (p c : Int),
      c ∈ buildChildMap table p ↔
        ∃ e ∈ table, e.pid = c ∧ parsePPIDFromStat e.stat = p ∧ 0 < p := by
    intro table p c
    rw [buildChildMap, buildChildMapFrom_mem]
    simp
  exact ⟨hmem, fun table c h => (hmem table c c).mpr h⟩

/-- Witness for C4: the iff at a concrete two-entry table, in both
directions (edge present for a positive parsed parent, absent for a parent
recorded as 0). -/
theorem claim_C4_child_map_witness :
    (7 : Int) ∈ buildChildMap [⟨7, "7 (sh) S 3".toList⟩, ⟨1, "1 (init) S 0".toList⟩] 3 ∧
    (1 : Int) ∉ buildChildMap [⟨7, "7 (sh) S 3".toList⟩, ⟨1, "1 (init) S 0".toList⟩] 0 := by
  constructor
  · exact (claim_C4_child_map.1 _ 3 7).mpr (by decide)
  · intro hmem
    have h := (claim_C4_child_map.1
      [⟨7, "7 (sh) S 3".toList⟩, ⟨1, "1 (init) S 0".toList⟩] 0 1).mp hmem
    revert h
    decide

/-! ## Descendant classification (`classifyChildren`, `containsAny`) -/

/-- Go's variadic `containsAny(s, subs...)`. -/
def containsAnyStr (s : Str) (subs : List Str) : Bool :=
  subs.any (fun sub => strHasSub s sub)

/-- Build-tool markers of `classifyChildren`. -/
def buildMarkers : List Str :=
  ["make".toList, "gcc".toList, "g++".toList, "cc1".toList, "rustc".toList,
   "javac".toList, "tsc".toList, "webpack".toList, "vite".toList,
   "esbuild".toList, "rollup".toList, "coordinator/cli.ts build".toList,
   " next build".toList, "npm run build".toList, "pnpm run build".toList,
   "yarn build".toList, "go build".toList, "cargo build".toList]

/-- Test-runner markers of `classifyChildren`. -/
def testMarkers : List Str :=
  ["jest".toList, "vitest".toList, "pytest".toList, "mocha".toList,
   "phpunit".toList, "rspec".toList]

/-- Package-manager markers of `classifyChildren`. -/
def packageMarkers : List Str :=
  ["npm".toList, "yarn".toList, "pnpm".toList, "pip".toList, "apt".toList,
   "brew".toList, "pacman".toList]

/-- Version-control markers of `classifyChildren`. -/
def vcsMarkers : List Str := ["git".toList]

/-- Network-tool markers of `classifyChildren`. -/
def netMarkers : List Str := ["curl".toList, "wget".toList]

/-- `classifyChildren` from `src/main.go`: join the descendant signals with
newlines, lower-case, and classify by ordered substring groups. -/
def classifyChildren (names : List Str) : Str :=
  if containsAnyStr (goToLower (joinNl names)) buildMarkers then "🔨".toList
  else if containsAnyStr (goToLower (joinNl names)) testMarkers then "🧪".toList
  else if containsAnyStr (goToLower (joinNl names)) packageMarkers then "📦".toList
  else if containsAnyStr (goToLower (joinNl names)) vcsMarkers then "🔀".toList
  else if containsAnyStr (goToLower (joinNl names)) netMarkers then "🌐".toList
  else "⚙️".toList

theorem strStarts_append_nl :
    ∀ (sub x r : Str), '\n' ∉ sub →
      strStarts (x ++ '\n' :: r) sub = strStarts x sub := by
  intro sub
  induction sub with
  | nil => intro x r _; cases x <;> simp [strStarts]
  | cons p ps ih =>
    intro x r hnl
    rw [List.mem_cons] at hnl
    push_neg at hnl
    cases x with
    | nil => simp [strStarts, hnl.1]
    | cons a x' => simp [strStarts, ih x' r hnl.2]

theorem strHasSub_append_nl (sub : Str) (hne : sub ≠ []) (hnl : '\n' ∉ sub) :
    ∀ (x r : Str),
      strHasSub (x ++ '\n' :: r) sub = (strHasSub x sub || strHasSub r sub) := by
  obtain ⟨p, ps, rfl⟩ : ∃ p ps, sub = p :: ps := by
    cases sub with
    | nil => exact absurd rfl hne
    | cons p ps => exact ⟨p, ps, rfl⟩
  rw [List.mem_cons] at hnl
  push_neg at hnl
  intro x r
  induction x with
  | nil =>
    simp [strHasSub, strStarts, hnl.1]
  | cons a x' ih =>
    have hs := strStarts_append_nl (p :: ps) (a :: x') r
      (by rw [List.mem_cons]; push_neg; exact hnl)
    rw [List.cons_append] at hs
    simp only [List.cons_append, strHasSub, hs, List.append_eq]
    rw [ih]
    cases hstart : strStarts (a :: x') (p :: ps) <;> simp

theorem strHasSub_joinNl (sub : Str) (hne : sub ≠ []) (hnl : '\n' ∉ sub) :
    ∀ l : List Str, strHasSub (joinNl l) sub = l.any (fun x => strHasSub x sub) := by
  intro l
  induction l with
  | nil =>
    obtain ⟨p, ps, rfl⟩ : ∃ p ps, sub = p :: ps := by
      cases sub with
      | nil => exact absurd rfl hne
      | cons p ps => exact ⟨p, ps, rfl⟩
    simp [joinNl, strHasSub, strStarts]
  | cons x t ih =>
    cases t with
    | nil => simp [joinNl]
    | cons y t' =>
      rw [show joinNl (x :: y :: t') = x ++ '\n' :: joinNl (y :: t') from rfl]
      rw [strHasSub_append_nl sub hne hnl x _, ih]
      simp

theorem goToLower_joinNl : ∀ l : List Str,
    goToLower (joinNl l) = joinNl (l.map goToLower) := by
  intro l
  induction l with
  | nil => rfl
  | cons x t ih =>
    cases t with
    | nil => rfl
    | cons y t' =>
      calc goToLower (joinNl (x :: y :: t'))
          = goToLower x ++ '\n'.toLower :: goToLower (joinNl (y :: t')) := by
            rw [show joinNl (x :: y :: t') = x ++ '\n' :: joinNl (y :: t') from rfl]
            simp [goToLower]
        _ = goToLower x ++ '\n' :: joinNl (List.map goToLower (y :: t')) := by
            rw [show ('\n'.toLower) = '\n' from by decide, ih]
        _ = joinNl (List.map goToLower (x :: y :: t')) := rfl

theorem permAny {α : Type} (f : α → Bool) {l₁ l₂ : List α} (h : l₁.Perm l₂) :
    l₁.any f = l₂.any f := by
  induction h with
  | nil => rfl
  | cons x _ ih => simp [ih]
  | swap x y l => simp [Bool.or_left_comm]
  | trans _ _ ih₁ ih₂ => rw [ih₁, ih₂]

theorem any_congr_mem {α : Type} (L : List α) (f g : α → Bool)
    (h : ∀ x ∈ L, f x = g x) : L.any f = L.any g := by
  induction L with
  | nil => rfl
  | cons x t ih =>
    simp only [List.any_cons, h x (List.mem_cons_self x t)]
    rw [ih (fun y hy => h y (List.mem_cons_of_mem x hy))]

theorem containsAnyStr_join_perm (M : List Str)
    (hM : ∀ m ∈ M, m ≠ [] ∧ '\n' ∉ m) {l₁ l₂ : List Str} (hperm : l₁.Perm l₂) :
    containsAnyStr (goToLower (joinNl l₁)) M =
      containsAnyStr (goToLower (joinNl l₂)) M := by
  unfold containsAnyStr
  apply any_congr_mem
  intro m hm
  obtain ⟨hne, hnl⟩ := hM m hm
  rw [goToLower_joinNl, goToLower_joinNl,
    strHasSub_joinNl m hne hnl, strHasSub_joinNl m hne hnl]
  exact permAny _ (hperm.map goToLower)

/-- Claim C9: `classifyChildren` gives the same category for any permutation
of the descendant-signal list, and whenever a build marker is present in the
joined text together with a test or package marker the build category wins;
in particular `["make", "cc1"]` classifies as build. -/
theorem claim_C9_classify_children :
    (∀ l₁ l₂ : List Str, l₁.Perm l₂ → classifyChildren l₁ = classifyChildren l₂) ∧
    (∀ names : List Str,
      containsAnyStr (goToLower (joinNl names)) buildMarkers = true →
      (containsAnyStr (goToLower (joinNl names)) testMarkers = true ∨
       containsAnyStr (goToLower (joinNl names)) packageMarkers = true) →
      classifyChildren names = "🔨".toList) ∧
    classifyChildren ["make".toList, "cc1".toList] = "🔨".toList := by
  refine ⟨?_, ?_, by decide⟩
  · intro l₁ l₂ h
    have e1 := containsAnyStr_join_perm buildMarkers (by decide) h
    have e2 := containsAnyStr_join_perm testMarkers (by decide) h
    have e3 := containsAnyStr_join_perm packageMarkers (by decide) h
    have e4 := containsAnyStr_join_perm vcsMarkers (by decide) h
    have e5 := containsAnyStr_join_perm netMarkers (by decide) h
    unfold classifyChildren
    rw [e1, e2, e3, e4, e5]
  · intro names h1 _h2
    unfold classifyChildren
    rw [if_pos h1]

/-- Witness for C9: a concrete swap of two signals, and build beating test
on `["make", "jest"]`. -/
theorem claim_C9_classify_children_witness :
    classifyChildren ["make".toList, "jest".toList] =
      classifyChildren ["jest".toList, "make".toList] ∧
    classifyChildren ["make".toList, "jest".toList] = "🔨".toList :=
  ⟨claim_C9_classify_children.1 _ _ (List.Perm.swap ("jest".toList) ("make".toList) []),
   claim_C9_classify_children.2.1 ["make".toList, "jest".toList]
     (by decide) (Or.inl (by decide))⟩

/-! ## Topic extraction and per-window topic memory -/

/-- `topicMaxRunes` from `src/main.go`. -/
def topicMaxRunes : Nat := 8

/-- `topicStopWords` from `src/main.go` (set modelled as a list). -/
def topicStopWords : List Str :=
  ["a".toList, "an".toList, "and".toList, "are".toList, "as".toList,
   "at".toList, "be".toList, "by".toList, "do".toList, "for".toList,
   "from".toList, "i".toList, "if".toList, "in".toList, "into".toList,
   "is".toList, "it".toList, "its".toList, "me".toList, "my".toList,
   "now".toList, "of".toList, "on".toList, "or".toList, "our".toList,
   "please".toList, "run".toList, "show".toList, "that".toList, "the".toList,
   "this".toList, "to".toList, "up".toList, "us".toList, "we".toList,
   "with".toList, "your".toList, "app".toList, "page".toList, "file".toList,
   "issue".toList, "task".toList, "filename".toList, "codebase".toList,
   "change".toList, "changes".toList, "commit".toList, "commits".toList,
   "current".toList, "add".toList, "check".toList, "create".toList,
   "deploy".toList, "explain".toList, "fix".toList, "make".toList,
   "remove".toList, "summarize".toList, "update".toList, "write".toList,
   "clean".toList, "debug".toList, "improve".toList, "investigate".toList,
   "refactor".toList, "test".toList, "tests".toList, "work".toList,
   "thinking".toList, "planning".toList, "implementing".toList,
   "accomplishing".toList, "brewing".toList, "leavening".toList,
   "perusing".toList, "pondering".toList, "transfiguring".toList]

/-- `topicAlias` from `src/main.go` (map modelled as an association list). -/
def topicAlias : List (Str × Str) :=
  [("auth".toList, "auth".toList), ("authentication".toList, "auth".toList),
   ("authorize".toList, "auth".toList), ("login".toList, "auth".toList),
   ("signin".toList, "auth".toList), ("oauth".toList, "auth".toList),
   ("nav".toList, "nav".toList), ("navbar".toList, "nav".toList),
   ("navigation".toList, "nav".toList), ("menu".toList, "menu".toList),
   ("menus".toList, "menu".toList), ("hamburger".toList, "menu".toList),
   ("drawer".toList, "menu".toList), ("search".toList, "search".toList),
   ("query".toList, "search".toList), ("shop".toList, "shop".toList),
   ("checkout".toList, "checkout".toList), ("cart".toList, "cart".toList),
   ("payment".toList, "payment".toList), ("shipping".toList, "shipping".toList),
   ("promo".toList, "promo".toList), ("promotions".toList, "promo".toList),
   ("campaign".toList, "promo".toList), ("image".toList, "image".toList),
   ("images".toList, "image".toList), ("photo".toList, "image".toList),
   ("parser".toList, "parser".toList), ("scrape".toList, "scrape".toList),
   ("crawler".toList, "scrape".toList), ("db".toList, "db".toList),
   ("database".toList, "db".toList), ("sql".toList, "sql".toList),
   ("api".toList, "api".toList), ("cache".toList, "cache".toList),
   ("redis".toList, "cache".toList), ("deploy".toList, "deploy".toList),
   ("release".toList, "deploy".toList)]

/-- `topicPreferred` from `src/main.go`. -/
def topicPreferred : List Str :=
  ["auth".toList, "nav".toList, "menu".toList, "search".toList,
   "shop".toList, "promo".toList, "checkout".toList, "cart".toList,
   "payment".toList, "shipping".toList, "parser".toList, "scrape".toList,
   "db".toList, "api".toList, "cache".toList, "deploy".toList]

/-- Lookup in the alias map. -/
def aliasFind (k : Str) : Option Str :=
  (topicAlias.find? (fun pr => pr.1 == k)).map (fun pr => pr.2)

/-- `tokenizeTopicWords` from `src/main.go`: split on runes that are neither
letters nor digits. -/
def tokenizeTopicWords (text : Str) : List Str :=
  fieldsBy (fun r => !(r.isAlpha || r.isDigit)) text

/-- The cutset of `trimTopic` (the punctuation runes trimmed from both
ends). -/
def topicTrimCutset : List Char :=
  ['_', '-', '.', ':', ',', ';', '!', '?', '(', ')', '[', ']',
   Char.ofNat 123, Char.ofNat 125, '"', Char.ofNat 39, Char.ofNat 96]

/-- `trimTopic` from `src/main.go`: trim the punctuation cutset from both
ends and cap at `topicMaxRunes` runes. -/
def trimTopic (token : Str) : Str :=
  let token :=
    ((token.dropWhile (topicTrimCutset.contains ·)).reverse.dropWhile
      (topicTrimCutset.contains ·)).reverse
  if token = [] then []
  else if topicMaxRunes < token.length then token.take topicMaxRunes
  else token

/-- `isNumericWord` from `src/main.go`. -/
def isNumericWord (word : Str) : Bool :=
  if word = [] then false else word.all Char.isDigit

/-- `maxInt` from `src/main.go` (used only on non-negative values). -/
def maxInt (a b : Nat) : Nat := if a > b then a else b

/-- Go `strings.HasSuffix s suf`. -/
def strEndsW (s suf : Str) : Bool := suf.isSuffixOf s

/-- `normalizeTopicToken` from `src/main.go`. -/
def normalizeTopicToken (raw : Str) : Str :=
  let raw := goToLower raw
  if raw = [] ∨ isNumericWord raw = true then []
  else if topicStopWords.contains raw then []
  else
    match aliasFind raw with
    | some a => trimTopic a
    | none =>
      let token := trimTopic raw
      if token = [] ∨ isNumericWord token = true then [] else token

/-- `topicScore` from `src/main.go`. -/
def topicScore (raw token : Str) (idx total : Nat) : Int :=
  (token.length : Int)
  + (if topicPreferred.contains token then 7 else 0)
  + (match aliasFind raw with
     | some a => if a = token then 4 else 0
     | none => 0)
  - (if strEndsW raw ("ing".toList) then 3 else 0)
  + ((idx * 2 / maxInt total 1 : Nat) : Int)

/-- The slash-command loop of `extractTopicWord`: the first field starting
with `/` whose first token normalizes to a non-empty topic. -/
def slashCmd : List Str → Option Str
  | [] => none
  | f :: rest =>
    if strStarts f ("/".toList) = true ∧ 1 < f.length then
      match tokenizeTopicWords (goTrimPre f ("/".toList)) with
      | t0 :: _ =>
        if normalizeTopicToken t0 ≠ [] then some (normalizeTopicToken t0)
        else slashCmd rest
      | [] => slashCmd rest
    else slashCmd rest

/-- The best-scoring-token loop of `extractTopicWord`. -/
def bestLoop : List Str → Nat → Nat → Str → Int → Str
  | [], _, _, best, _ => best
  | rt :: rest, i, total, best, bestScore =>
    let token := normalizeTopicToken rt
    if token = [] then bestLoop rest (i + 1) total best bestScore
    else
      if bestScore < topicScore rt token i total then
        bestLoop rest (i + 1) total token (topicScore rt token i total)
      else bestLoop rest (i + 1) total best bestScore

/-- `extractTopicWord` from `src/main.go`. -/
def extractTopicWord (text : Str) : Str :=
  let lower := goToLower text
  match slashCmd (goFields lower) with
  | some cmd => cmd
  | none =>
    bestLoop (tokenizeTopicWords lower) 0 (tokenizeTopicWords lower).length [] (-1)

/-- The activity-text preprocessing of the active-marker branch of
`classifyPaneTopic`: strip the spinner glyph prefix and cut at a trailing
parenthetical (rune-level model of the source's byte slicing). -/
def topicActivityText (line : Str) : Str :=
  let activity :=
    if hasSpinnerMarker line = true ∧ 2 < line.length
    then goTrimSpace (line.drop 2) else line
  match indexOfSub activity (" (".toList) with
  | some cut => if 0 < cut then activity.take cut else activity
  | none => activity

/-- Bottom-up scan of `classifyPaneTopic` (depth cap 24). -/
def classifyPaneTopicAux : List Str → Nat → Str
  | [], _ => []
  | l :: rest, checked =>
    if checked < 24 then
      let line := goTrimSpace l
      if line = [] then classifyPaneTopicAux rest checked
      else if strStarts line ("› ".toList) = true ∨ line = "›".toList then
        if extractTopicWord (goTrimSpace (goTrimPre line ("›".toList))) ≠ [] then
          extractTopicWord (goTrimSpace (goTrimPre line ("›".toList)))
        else classifyPaneTopicAux rest (checked + 1)
      else if strStarts line ("❯ ".toList) = true ∨ line = "❯".toList then
        if extractTopicWord (goTrimSpace (goTrimPre line ("❯".toList))) ≠ [] then
          extractTopicWord (goTrimSpace (goTrimPre line ("❯".toList)))
        else classifyPaneTopicAux rest (checked + 1)
      else if hasActiveMarker line then
        if extractTopicWord (topicActivityText line) ≠ [] then
          extractTopicWord (topicActivityText line)
        else classifyPaneTopicAux rest (checked + 1)
      else classifyPaneTopicAux rest (checked + 1)
    else []

/-- `classifyPaneTopic` from `src/main.go`. -/
def classifyPaneTopic (content : Str) : Str :=
  classifyPaneTopicAux (splitOnChar '\n' content).reverse 0

/-- `rememberWindowTopic` from `src/main.go`, per window: given the capture
(`none` on a capture miss) and the stored topic (`[]` when absent), return
the reported topic and the updated stored topic. -/
def rememberWindowTopic (capture : Option Str) (stored : Str) : Str × Str :=
  match capture with
  | none => (stored, stored)
  | some content =>
    let topic := classifyPaneTopic content
    if topic ≠ [] then (topic, topic) else (stored, stored)

/-- The per-window pruning loop of `updateAllPanes` restricted to
`windowTopic`: the stored topic survives iff the window was seen in the
current cycle's pane list. -/
def pruneWindowTopic (seen : Bool) (stored : Str) : Str :=
  if seen then stored else []

/-- Claim C10: once a non-empty topic is stored for a window, every later
`rememberWindowTopic` call returns a non-empty topic — a capture miss or
content without a topic word leaves the store unchanged and returns it, a
non-empty newly classified topic replaces it — and the stored topic is
removed only by the end-of-cycle pruning of windows absent from the pane
list. -/
theorem claim_C10_topic_memory :
    (∀ (capture : Option Str) (stored : Str), stored ≠ [] →
      (rememberWindowTopic capture stored).1 ≠ [] ∧
      (rememberWindowTopic capture stored).2 = (rememberWindowTopic capture stored).1) ∧
    (∀ stored : Str, rememberWindowTopic none stored = (stored, stored)) ∧
    (∀ (content stored : Str), classifyPaneTopic content = [] →
      rememberWindowTopic (some content) stored = (stored, stored)) ∧
    (∀ (content stored : Str), classifyPaneTopic content ≠ [] →
      rememberWindowTopic (some content) stored =
        (classifyPaneTopic content, classifyPaneTopic content)) ∧
    (∀ stored : Str, pruneWindowTopic true stored = stored ∧
      pruneWindowTopic false stored = []) := by
  refine ⟨?_, fun _ => rfl, ?_, ?_, fun _ => ⟨rfl, rfl⟩⟩
  · intro capture stored h
    cases capture with
    | none => exact ⟨h, rfl⟩
    | some content =>
      by_cases ht : classifyPaneTopic content = []
      · constructor <;> simp [rememberWindowTopic, ht, h]
      · constructor <;> simp [rememberWindowTopic, ht]
  · intro content stored ht
    simp [rememberWindowTopic, ht]
  · intro content stored ht
    simp [rememberWindowTopic, ht]

/-- Witness for C10 at concrete inputs: a capture miss keeps the stored
topic, topicless content keeps it, and a prompt mentioning auth replaces
it. -/
theorem claim_C10_topic_memory_witness :
    ((rememberWindowTopic none ("db".toList)).1 ≠ [] ∧
      (rememberWindowTopic none ("db".toList)).2 =
        (rememberWindowTopic none ("db".toList)).1) ∧
    rememberWindowTopic (some ("\n".toList)) ("db".toList) =
      ("db".toList, "db".toList) ∧
    rememberWindowTopic (some ("› fix auth bug\n".toList)) ("db".toList) =
      (classifyPaneTopic ("› fix auth bug\n".toList),
       classifyPaneTopic ("› fix auth bug\n".toList)) :=
  ⟨claim_C10_topic_memory.1 none ("db".toList) (by decide),
   claim_C10_topic_memory.2.2.1 ("\n".toList) ("db".toList) (by decide),
   claim_C10_topic_memory.2.2.2.1 ("› fix auth bug\n".toList) ("db".toList)
     (by decide)⟩

end TmuxAiStatus
